import Mathlib

/-!
Shallow embedding of the authentication core of the vercel-backend repository
(`src/routes/auth.js`, which also carries the Student model and its bcrypt
hooks, and the JWT middleware in `backend/middleware/auth.js`).

Modelling conventions:
* bcrypt is modelled as an ideal salted one-way hash: `PwField.hashPB salt p`
  is the opaque output of `bcrypt.hash(p, salt)`; a stored value that is not
  a bcrypt hash is `PwField.plainPB s`.  Opacity of the hash (a hash string
  never coincides with a submitted plaintext) is represented by constructor
  disjointness.
* JSON responses are projected to status / success / message, the fields the
  claims talk about; handlers additionally return the issued token and the
  post-state of the student collection.
* Mongoose behaviour encoded from the schema in `auth.js`: `email` has
  `lowercase: true`, so the stored email is lowercased on assignment and the
  schema setter is likewise applied to `findOne` query filters (Mongoose 6+
  runs setters on query filters by default).
* JS falsiness of missing body fields: an absent or empty string both fail
  the `if (!x)` guards, so required string inputs are modelled as `String`
  with the empty string standing for the missing field; the `skills` field,
  whose absence changes control flow, is an `Option`.
-/

/-- Stored password field of a student document.  `plainPB s` is a raw
string that is not a bcrypt hash (for instance a plaintext assigned by a
handler before the pre-save hook has run, or a malformed stored hash);
`hashPB salt p` is the bcrypt hash of plaintext `p` under salt `salt`. -/
inductive PwField where
  | plainPB (s : String)
  | hashPB (salt : Nat) (plain : String)
deriving DecidableEq

/-- Model of `bcrypt.compare(candidate, stored)` from bcryptjs: comparing
against a well-formed hash succeeds with the boolean match result; comparing
against a malformed stored value rejects with an error. -/
def bcryptCompare (candidate : String) (stored : PwField) : Except String Bool :=
  match stored with
  | PwField.hashPB _ p => Except.ok (candidate == p)
  | PwField.plainPB _ => Except.error "Invalid salt"

/-- Model of the `comparePassword` instance method in `auth.js` lines
684-698: it awaits `bcrypt.compare` inside a try/catch whose catch branch
returns `false`, so every outcome is an `ok` boolean and errors from the
underlying compare are swallowed. -/
def comparePasswordE (candidate : String) (stored : PwField) : Except String Bool :=
  match bcryptCompare candidate stored with
  | Except.ok b => Except.ok b
  | Except.error _ => Except.ok false

/-- Boolean value produced by `comparePassword` as observed by its callers
(the promise always resolves). -/
def comparePassword (candidate : String) (stored : PwField) : Bool :=
  match bcryptCompare candidate stored with
  | Except.ok b => b
  | Except.error _ => false

/-- Payload of a JSON Web Token as issued by the register/login handlers:
`jwt.sign({userId, email}, secret, {expiresIn: 7d})` adds the issue time
`iat` and expiry `exp` (seconds). -/
structure JwtPayload where
  userId : Nat
  email : String
  iat : Nat
  exp : Nat
deriving DecidableEq

/-- A bearer token as the verifier sees it: a well-formed token signed with
some secret, a structurally corrupt string, or a token whose verification
fails for a reason other than signature or expiry (for instance a not-before
claim), which `jwt.verify` reports with a distinct error class. -/
inductive Token where
  | signed (payload : JwtPayload) (secret : String)
  | garbage (s : String)
  | weird (msg : String)
deriving DecidableEq

/-- Result of `jwt.verify`: success with the decoded payload, a
`JsonWebTokenError` (bad signature or structure), a `TokenExpiredError`, or
any other verification error. -/
inductive VerifyResult where
  | ok (p : JwtPayload)
  | jsonWebTokenError
  | tokenExpiredError
  | otherError (msg : String)
deriving DecidableEq

/-- Seven days in seconds, the `expiresIn: '7d'` option of `jwt.sign`. -/
def sevenDays : Nat := 604800

/-- Model of `jwt.sign({userId, email}, secret, {expiresIn: '7d'})` at clock
time `now` (seconds). -/
def signToken (uid : Nat) (email : String) (secret : String) (now : Nat) : Token :=
  Token.signed ⟨uid, email, now, now + sevenDays⟩ secret

/-- Model of `jwt.verify(token, secret)` at clock time `now`: structural
corruption and signature mismatch raise `JsonWebTokenError`; a token whose
expiry instant has been reached raises `TokenExpiredError`; otherwise the
payload is returned.  The verifier reads nothing but the token, the secret
and the clock. -/
def verifyToken : Token → String → Nat → VerifyResult
  | Token.garbage _, _, _ => VerifyResult.jsonWebTokenError
  | Token.weird m, _, _ => VerifyResult.otherError m
  | Token.signed p s, secret, now =>
      if s == secret then
        if p.exp ≤ now then VerifyResult.tokenExpiredError else VerifyResult.ok p
      else VerifyResult.jsonWebTokenError

/-- Checks that the character list `l` starts with the pattern `pat`. -/
def startsWithL : List Char → List Char → Bool
  | [], _ => true
  | _ :: _, [] => false
  | p :: ps, c :: cs => p == c && startsWithL ps cs

/-- JS `String.prototype.replace` with a string pattern and empty
replacement: the first occurrence of `pat`, if any, is removed. -/
def replaceFirstL (pat : List Char) : List Char → List Char
  | [] => []
  | c :: rest =>
      if startsWithL pat (c :: rest) then (c :: rest).drop pat.length
      else c :: replaceFirstL pat rest

/-- Token extraction of the middleware: `authHeader.replace('Bearer ', '')`,
which removes the first occurrence of the substring `Bearer ` anywhere in
the header value. -/
def stripBearer (h : String) : String :=
  String.mk (replaceFirstL "Bearer ".data h.data)

/-- Checks that string `s` starts with `pat`. -/
def startsWithStr (s pat : String) : Bool :=
  startsWithL pat.data s.data

/-- Outcome of the auth middleware on a request: either a JSON response is
sent (status, success flag, message) and the handler chain stops, or the
decoded identity is attached to `req.user` and control proceeds to the
route handler.  These are the only effects of `authenticateToken`. -/
inductive MwOutcome where
  | respond (status : Nat) (success : Bool) (message : String)
  | proceed (user : JwtPayload)
deriving DecidableEq

/-- Mapping from the verifier outcome to the middleware outcome, following
the success branch and the catch branch of `authenticateToken`:
`JsonWebTokenError` and `TokenExpiredError` yield 401 responses and any
other verification error yields the 500 response. -/
def dispatchVerify : VerifyResult → MwOutcome
  | VerifyResult.ok p => MwOutcome.proceed p
  | VerifyResult.jsonWebTokenError => MwOutcome.respond 401 false "Invalid token"
  | VerifyResult.tokenExpiredError =>
      MwOutcome.respond 401 false "Token expired. Please login again."
  | VerifyResult.otherError _ =>
      MwOutcome.respond 500 false "Token verification failed"

/-- Model of `authenticateToken` in `backend/middleware/auth.js`,
parameterised by the verification function `vf` (standing for
`jwt.verify(-, JWT_SECRET)` at the current clock).  The header is absent
(`none`) or carries a string; after stripping `Bearer ` an empty token is
rejected as missing (`!token` in JS is true for the empty string and for
`undefined`). -/
def authenticateToken (vf : String → VerifyResult) (authHeader : Option String) : MwOutcome :=
  match authHeader with
  | none => MwOutcome.respond 401 false "Access denied. No token provided."
  | some h =>
      let token := stripBearer h
      if token == "" then MwOutcome.respond 401 false "Access denied. No token provided."
      else dispatchVerify (vf token)

/-- Lowercasing as performed by `String.prototype.toLowerCase` on ASCII,
the normalization the `lowercase: true` schema option applies. -/
def lowerStr (s : String) : String :=
  String.mk (s.data.map Char.toLower)

/-- JS `String.prototype.trim`: whitespace removed from both ends. -/
def trimStr (s : String) : String :=
  String.mk (((s.data.dropWhile Char.isWhitespace).reverse.dropWhile Char.isWhitespace).reverse)

/-- JS `String.prototype.split` with separator `,` over a character list;
the accumulator holds the current piece reversed. -/
def splitCommaAux : List Char → List Char → List String
  | [], acc => [String.mk acc.reverse]
  | c :: rest, acc =>
      if c == ',' then String.mk acc.reverse :: splitCommaAux rest []
      else splitCommaAux rest (c :: acc)

/-- JS `s.split(',')`. -/
def splitComma (s : String) : List String :=
  splitCommaAux s.data []

/-- A stored student document, projected to the fields the authentication
core reads or writes.  The single-entry `personalInfo` and `education`
subdocuments built by the register handler are flattened; the optional
certification and training arrays, which no claim touches, are omitted. -/
structure Student where
  id : Nat
  email : String
  password : PwField
  fullName : String
  address : String
  gender : String
  dateOfBirth : String
  mobileNo : String
  courseName : String
  college : String
  skills : List String
  passwordChangedAt : Option Nat
  lastLoginAt : Option Nat
  lastLogoutAt : Option Nat
deriving DecidableEq

/-- Model of `Student.findOne({ email })`: the schema has
`lowercase: true` on `email`, so the setter lowercases both the stored
value (on assignment) and the query filter value (Mongoose applies schema
setters to query filters), making the lookup case-insensitive. -/
def findOneByEmail (db : List Student) (e : String) : Option Student :=
  db.find? (fun s => s.email == lowerStr e)

/-- Model of `Student.findById(id)`. -/
def findById (db : List Student) (uid : Nat) : Option Student :=
  db.find? (fun s => s.id == uid)

/-- Updates the first document whose `_id` matches, as a Mongo write by id
does, leaving every other document untouched. -/
def updateFirstById (uid : Nat) (f : Student → Student) : List Student → List Student
  | [] => []
  | s :: r => if s.id == uid then f s :: r else s :: updateFirstById uid f r

/-- The `skills` request field: the register handler accepts an array or a
comma-separated string (`Array.isArray(skills) ? skills :
skills.split(',')...`). -/
inductive SkillsField where
  | arr (l : List String)
  | str (s : String)
deriving DecidableEq

/-- Request body of `POST /register`, projected to the fields that reach
the student document (certification and training blocks omitted, see
`Student`).  `skills` is optional because its absence changes control
flow. -/
structure RegisterBody where
  email : String
  password : String
  fullName : String
  address : String
  gender : String
  dateOfBirth : String
  mobileNo : String
  courseName : String
  college : String
  skills : Option SkillsField
deriving DecidableEq

/-- The skills line of the register handler: on an array the value is taken
as is, on a string it is split on commas and trimmed, and on an absent
field `skills.split` throws a `TypeError`. -/
def buildSkills : Option SkillsField → Except String (List String)
  | none => Except.error "TypeError"
  | some (SkillsField.arr l) => Except.ok l
  | some (SkillsField.str s) => Except.ok ((splitComma s).map trimStr)

/-- The schema regex for emails, `^\S+@\S+\.\S+$`: no whitespace anywhere,
an `@` preceded by at least one character, and a later `.` with at least
one character between and after. -/
def emailRegexOk (s : String) : Bool :=
  let cs := s.data
  cs.all (fun c => !c.isWhitespace) &&
    (List.range cs.length).any (fun i =>
      (List.range cs.length).any (fun j =>
        decide (1 ≤ i) && decide (i + 2 ≤ j) && decide (j + 1 < cs.length) &&
          (cs.get? i == some '@') && (cs.get? j == some '.')))

/-- The schema `minlength: 6` validator on `password`; mongoose validates
the document before the pre-save hook hashes, so it sees the plaintext. -/
def pwMinLenOk : PwField → Bool
  | PwField.plainPB s => decide (6 ≤ s.length)
  | PwField.hashPB _ _ => true

/-- Mongoose document validation for the required fields of the student
schema, evaluated at save time. -/
def validStudent (s : Student) : Bool :=
  !(s.email == "") && emailRegexOk s.email && pwMinLenOk s.password &&
    !(s.fullName == "") && !(s.address == "") &&
    (s.gender == "male" || s.gender == "female" || s.gender == "other") &&
    !(s.dateOfBirth == "") && !(s.mobileNo == "") &&
    !(s.courseName == "") && !(s.college == "")

/-- JSON response projected to the fields the claims mention. -/
structure ApiResp where
  status : Nat
  success : Bool
  message : String
deriving DecidableEq

/-- Full observable outcome of a route handler: the response, the issued
token if any, and the student collection afterwards. -/
structure HandlerResult where
  resp : ApiResp
  token : Option Token
  db : List Student
deriving DecidableEq

/-- Model of `POST /register` (`auth.js` lines 43-164).  The duplicate
check runs first; with `skills` absent the data build throws a `TypeError`
which the catch handler answers with the 500 response (its name is not
`ValidationError`); otherwise the document is validated and saved, the
pre-save hook hashing the password, and a token is issued.  `newId` is the
generated `_id`, `salt` the bcrypt salt drawn by the hook, `now` the clock
used by `jwt.sign`. -/
def register (db : List Student) (b : RegisterBody) (newId salt now : Nat)
    (secret : String) : HandlerResult :=
  match findOneByEmail db b.email with
  | some _ => ⟨⟨400, false, "Email already registered"⟩, none, db⟩
  | none =>
      match buildSkills b.skills with
      | Except.error _ => ⟨⟨500, false, "Server error during registration"⟩, none, db⟩
      | Except.ok sk =>
          let doc : Student :=
            ⟨newId, lowerStr b.email, PwField.plainPB b.password, b.fullName,
              b.address, b.gender, b.dateOfBirth, b.mobileNo, b.courseName,
              b.college, sk, none, none, none⟩
          if validStudent doc then
            let saved := { doc with password := PwField.hashPB salt b.password }
            ⟨⟨201, true, "Student registered successfully"⟩,
              some (signToken newId saved.email secret now), db ++ [saved]⟩
          else ⟨⟨400, false, "Validation error"⟩, none, db⟩

/-- Model of `POST /login` (`auth.js` lines 167-246).  Missing email or
password is rejected first; an unknown email and a failed password check
produce the same 401 response; on success `lastLoginAt` is stamped (the
pre-save hook skips hashing because `password` is not modified) and a fresh
token is issued. -/
def login (db : List Student) (email pw : String) (now : Nat)
    (secret : String) : HandlerResult :=
  if email == "" || pw == "" then
    ⟨⟨400, false, "Please provide email and password"⟩, none, db⟩
  else
    match findOneByEmail db email with
    | none => ⟨⟨401, false, "Invalid email or password"⟩, none, db⟩
    | some st =>
        if comparePassword pw st.password then
          ⟨⟨200, true, "Login successful"⟩,
            some (signToken st.id st.email secret now),
            updateFirstById st.id (fun s => { s with lastLoginAt := some now }) db⟩
        else ⟨⟨401, false, "Invalid email or password"⟩, none, db⟩

/-- Model of `POST /change-password` (`auth.js` lines 249-327), after the
auth middleware has attached `req.user` with `userId = uid`.  Input checks
run first; then the document is fetched, the plaintext is assigned and the
save rehashes via the pre-save hook with fresh salt `salt`; the handler
re-fetches and tests the stored hash with `bcrypt.compare` before
answering. -/
def changePassword (db : List Student) (uid : Nat) (newPw confirmPw : String)
    (now salt : Nat) : HandlerResult :=
  if newPw == "" || confirmPw == "" then
    ⟨⟨400, false, "Please provide both new password and confirmation"⟩, none, db⟩
  else if newPw != confirmPw then
    ⟨⟨400, false, "Passwords do not match"⟩, none, db⟩
  else if newPw.length < 6 then
    ⟨⟨400, false, "Password must be at least 6 characters long"⟩, none, db⟩
  else
    match findById db uid with
    | none => ⟨⟨404, false, "Student not found"⟩, none, db⟩
    | some _ =>
        let db' := updateFirstById uid
          (fun s => { s with password := PwField.hashPB salt newPw,
                             passwordChangedAt := some now }) db
        match findById db' uid with
        | none => ⟨⟨500, false, "Failed to change password"⟩, none, db'⟩
        | some st2 =>
            match bcryptCompare newPw st2.password with
            | Except.ok true => ⟨⟨200, true, "Password changed successfully"⟩, none, db'⟩
            | _ => ⟨⟨500, false, "Password update failed. Please try again."⟩, none, db'⟩

/-- Model of `POST /logout` (`auth.js` lines 330-353):
`findByIdAndUpdate(userId, { lastLogoutAt })` stamps the one matching
document and the handler answers 200 whether or not a document matched. -/
def logout (db : List Student) (uid now : Nat) : HandlerResult :=
  ⟨⟨200, true, "Logged out successfully"⟩, none,
    updateFirstById uid (fun s => { s with lastLogoutAt := some now }) db⟩

/-- How a protected route decides access for a presented token: the
middleware calls the verifier on the token, the secret and the clock only;
it reads no per-account state (there is no revocation list), exactly as
`authenticateToken` does. -/
def protectedCheck (_db : List Student) (t : Token) (secret : String)
    (now : Nat) : MwOutcome :=
  dispatchVerify (verifyToken t secret now)

/-- One state-changing request against the credential store. -/
inductive Op where
  | opRegister (b : RegisterBody) (newId salt now : Nat) (secret : String)
  | opLogin (e p : String) (now : Nat) (secret : String)
  | opChangePw (uid : Nat) (newPw confirmPw : String) (now salt : Nat)
  | opLogout (uid now : Nat)

/-- Post-state of the student collection after one request. -/
def applyOp (db : List Student) : Op → List Student
  | Op.opRegister b i sa n sec => (register db b i sa n sec).db
  | Op.opLogin e p n sec => (login db e p n sec).db
  | Op.opChangePw u np cp n sa => (changePassword db u np cp n sa).db
  | Op.opLogout u n => (logout db u n).db

/-- Student collections reachable from the empty store through the
account-lifecycle endpoints. -/
inductive Reachable : List Student → Prop
  | init : Reachable []
  | step (db : List Student) (op : Op) : Reachable db → Reachable (applyOp db op)

/-- A stored password value that is a bcrypt hash. -/
def HashedPw (pw : PwField) : Prop :=
  ∃ sa p, pw = PwField.hashPB sa p

/-- The unique index on `email`: pairwise distinct stored emails. -/
def emailsUniq : List Student → Bool
  | [] => true
  | s :: r => r.all (fun t => !(t.email == s.email)) && emailsUniq r

theorem find?_eq_some_of_uniq (db : List Student) (st : Student) (key : String)
    (hu : emailsUniq db = true) (hm : st ∈ db) (he : st.email = key) :
    db.find? (fun s => s.email == key) = some st := by
  induction db with
  | nil => cases hm
  | cons a r ih =>
      simp only [emailsUniq, Bool.and_eq_true, List.all_eq_true, Bool.not_eq_true',
        beq_eq_false_iff_ne] at hu
      rcases List.mem_cons.mp hm with h | h
      · subst h
        simp [List.find?, he]
      · have hne : a.email ≠ key := by
          intro hk
          exact hu.1 st h (he.trans hk.symm)
        have : (a.email == key) = false := by simp [hne]
        simp only [List.find?, this]
        exact ih hu.2 h

theorem mem_updateFirstById {P : Student → Prop} (uid : Nat) (f : Student → Student)
    (db : List Student) (hdb : ∀ s ∈ db, P s) (hf : ∀ s, P s → P (f s)) :
    ∀ s ∈ updateFirstById uid f db, P s := by
  induction db with
  | nil => intro s hs; cases hs
  | cons a r ih =>
      intro s hs
      by_cases h : (a.id == uid) = true
      · rw [updateFirstById, if_pos h] at hs
        rcases List.mem_cons.mp hs with h1 | h1
        · exact h1 ▸ hf a (hdb a (List.mem_cons_self a r))
        · exact hdb s (List.mem_cons_of_mem a h1)
      · rw [updateFirstById, if_neg h] at hs
        rcases List.mem_cons.mp hs with h1 | h1
        · exact h1 ▸ hdb a (List.mem_cons_self a r)
        · exact ih (fun t ht => hdb t (List.mem_cons_of_mem a ht)) s h1

theorem forall2_updateFirstById (uid : Nat) (f : Student → Student) (db : List Student) :
    List.Forall₂ (fun a b => b = a ∨ b = f a) db (updateFirstById uid f db) := by
  induction db with
  | nil => exact List.Forall₂.nil
  | cons a r ih =>
      by_cases h : (a.id == uid) = true
      · rw [updateFirstById, if_pos h]
        exact List.Forall₂.cons (Or.inr rfl) (List.forall₂_same.mpr fun x _ => Or.inl rfl)
      · rw [updateFirstById, if_neg h]
        exact List.Forall₂.cons (Or.inl rfl) ih

theorem register_db_cases (db : List Student) (b : RegisterBody) (newId salt now : Nat)
    (secret : String) :
    (register db b newId salt now secret).db = db ∨
    ∃ sk, (register db b newId salt now secret).db =
      db ++ [⟨newId, lowerStr b.email, PwField.hashPB salt b.password, b.fullName,
        b.address, b.gender, b.dateOfBirth, b.mobileNo, b.courseName, b.college,
        sk, none, none, none⟩] := by
  simp only [register]
  split
  · left; rfl
  · split
    · left; rfl
    · split
      · right; exact ⟨_, rfl⟩
      · left; rfl

theorem login_db_cases (db : List Student) (e p : String) (now : Nat) (secret : String) :
    (login db e p now secret).db = db ∨
    ∃ uid, (login db e p now secret).db =
      updateFirstById uid (fun s => { s with lastLoginAt := some now }) db := by
  simp only [login]
  split
  · left; rfl
  · split
    · left; rfl
    · split
      · right; exact ⟨_, rfl⟩
      · left; rfl

theorem changePassword_db_cases (db : List Student) (uid : Nat) (np cp : String)
    (now salt : Nat) :
    (changePassword db uid np cp now salt).db = db ∨
    (changePassword db uid np cp now salt).db =
      updateFirstById uid
        (fun s => { s with password := PwField.hashPB salt np,
                           passwordChangedAt := some now }) db := by
  simp only [changePassword]
  split
  · left; rfl
  · split
    · left; rfl
    · split
      · left; rfl
      · split
        · left; rfl
        · split
          · right; rfl
          · split
            · right; rfl
            · right; rfl

theorem reachable_hashed (db : List Student) (h : Reachable db) :
    ∀ s ∈ db, HashedPw s.password := by
  induction h with
  | init => intro s hs; cases hs
  | step db0 op h0 ih =>
      cases op with
      | opRegister b i sa n sec =>
          intro s hs
          simp only [applyOp] at hs
          rcases register_db_cases db0 b i sa n sec with hc | ⟨sk, hc⟩
          · rw [hc] at hs; exact ih s hs
          · rw [hc] at hs
            rcases List.mem_append.mp hs with h1 | h1
            · exact ih s h1
            · have h2 := List.mem_singleton.mp h1
              rw [h2]
              exact ⟨sa, b.password, rfl⟩
      | opLogin e p n sec =>
          intro s hs
          simp only [applyOp] at hs
          rcases login_db_cases db0 e p n sec with hc | ⟨uid, hc⟩
          · rw [hc] at hs; exact ih s hs
          · rw [hc] at hs
            exact mem_updateFirstById uid
              (fun s => { s with lastLoginAt := some n }) db0 ih (fun t ht => ht) s hs
      | opChangePw uid np cp n sa =>
          intro s hs
          simp only [applyOp] at hs
          rcases changePassword_db_cases db0 uid np cp n sa with hc | hc
          · rw [hc] at hs; exact ih s hs
          · rw [hc] at hs
            exact mem_updateFirstById uid
              (fun s => { s with password := PwField.hashPB sa np,
                                 passwordChangedAt := some n }) db0 ih
              (fun t _ => ⟨sa, np, rfl⟩) s hs
      | opLogout uid n =>
          intro s hs
          simp only [applyOp, logout] at hs
          exact mem_updateFirstById uid
            (fun s => { s with lastLogoutAt := some n }) db0 ih (fun t ht => ht) s hs

theorem startsWithL_decomp (pat : List Char) :
    ∀ l : List Char, startsWithL pat l = true → l = pat ++ l.drop pat.length := by
  induction pat with
  | nil => intro l _; simp
  | cons p ps ih =>
      intro l h
      cases l with
      | nil => cases h
      | cons c cs =>
          simp only [startsWithL, Bool.and_eq_true, beq_iff_eq] at h
          rcases h with ⟨h1, h2⟩
          subst h1
          simpa using ih cs h2

theorem replaceFirstL_eq_nil (pat : List Char) :
    ∀ l : List Char, replaceFirstL pat l = [] → l = [] ∨ l = pat := by
  intro l
  induction l with
  | nil => intro _; left; rfl
  | cons c cs ih =>
      intro h
      by_cases hsw : startsWithL pat (c :: cs) = true
      · right
        rw [replaceFirstL, if_pos hsw] at h
        calc c :: cs = pat ++ (c :: cs).drop pat.length := startsWithL_decomp pat (c :: cs) hsw
          _ = pat ++ [] := by rw [h]
          _ = pat := by simp
      · rw [replaceFirstL, if_neg hsw] at h
        cases h

theorem stripBearer_eq_empty (s : String) (h : stripBearer s = "") :
    s = "" ∨ s = "Bearer " := by
  have hdata : replaceFirstL "Bearer ".data s.data = [] := by
    have h2 := congrArg String.data h
    simpa [stripBearer] using h2
  rcases replaceFirstL_eq_nil _ _ hdata with h1 | h1
  · left; exact String.ext h1
  · right; exact String.ext h1

/-- Concrete registration request used by witnesses. -/
def demoBody : RegisterBody :=
  ⟨"A@B.com", "secret123", "Alice Doe", "1 Road", "female", "2000-01-01",
    "1234567890", "CS", "College", some (SkillsField.str "lean, js")⟩

/-- The collection obtained by registering `demoBody` against the empty
store. -/
def demoRegState : List Student :=
  applyOp [] (Op.opRegister demoBody 1 7 100 "k")

/-- The stored document that registration of `demoBody` produces. -/
def demoStudent : Student :=
  ⟨1, "a@b.com", PwField.hashPB 7 "secret123", "Alice Doe", "1 Road", "female",
    "2000-01-01", "1234567890", "CS", "College", ["lean", "js"], none, none, none⟩

/-- A stored account used by login and logout witnesses. -/
def demoStored : Student :=
  ⟨1, "a@b.com", PwField.hashPB 5 "secret1", "Al", "Addr", "male", "2000",
    "123", "CS", "C", ["x"], none, none, none⟩

/-- A one-account collection used by witnesses. -/
def demoDb : List Student := [demoStored]

/-- C1: a registration request whose email already belongs to a stored
account (emails compared case-insensitively, stored emails being
lowercased) is answered with the 400 conflict response, `success:false`,
and the whole collection, in particular the existing account, is left
unchanged. -/
theorem register_duplicate_email_conflict (db : List Student) (b : RegisterBody)
    (newId salt now : Nat) (secret : String) (st : Student)
    (hm : st ∈ db) (he : st.email = lowerStr b.email) :
    register db b newId salt now secret =
      ⟨⟨400, false, "Email already registered"⟩, none, db⟩ := by
  have hsome : (db.find? (fun s => s.email == lowerStr b.email)).isSome := by
    rw [List.find?_isSome]
    exact ⟨st, hm, by simp [he]⟩
  rcases Option.isSome_iff_exists.mp hsome with ⟨st', hf⟩
  have hf' : findOneByEmail db b.email = some st' := hf
  simp [register, hf']

theorem register_duplicate_email_conflict_witness :
    register demoDb ⟨"A@B.COM", "p", "f", "a", "male", "d", "m", "c", "c", none⟩
        2 3 4 "k" =
      ⟨⟨400, false, "Email already registered"⟩, none, demoDb⟩ :=
  register_duplicate_email_conflict demoDb
    ⟨"A@B.COM", "p", "f", "a", "male", "d", "m", "c", "c", none⟩ 2 3 4 "k"
    demoStored (by decide) (by decide)

/-- C2: the login failure for an unknown email and the login failure for a
known email with a non-verifying password are the same response: status
401 with body `success:false`, message `Invalid email or password`, no
token, and an unchanged collection, so the caller cannot tell the two
cases apart. -/
theorem login_failures_indistinguishable (db : List Student) (e p : String)
    (now : Nat) (secret : String) (he : e ≠ "") (hp : p ≠ "") :
    (findOneByEmail db e = none →
      login db e p now secret =
        ⟨⟨401, false, "Invalid email or password"⟩, none, db⟩) ∧
    ∀ st, findOneByEmail db e = some st → comparePassword p st.password = false →
      login db e p now secret =
        ⟨⟨401, false, "Invalid email or password"⟩, none, db⟩ := by
  constructor
  · intro hf
    simp [login, hf, he, hp]
  · intro st hf hcmp
    simp [login, hf, hcmp, he, hp]

theorem login_failures_indistinguishable_witness :
    login [] "a@b.com" "x" 0 "k" =
      ⟨⟨401, false, "Invalid email or password"⟩, none, []⟩ :=
  (login_failures_indistinguishable [] "a@b.com" "x" 0 "k"
    (by decide) (by decide)).1 rfl

/-- C3: the middleware responds 401 with the no-token message when no
bearer token is present (header absent, or the extracted token empty); 401
with the invalid-token message when the verifier reports a signature or
structure error; 401 with the expired message when the verifier reports
expiry; 500 on any other verification failure; and on success it attaches
the decoded payload and proceeds, these outcomes being its only effects. -/
theorem auth_middleware_case_analysis (vf : String → VerifyResult) (s : String)
    (p : JwtPayload) (m : String) :
    (authenticateToken vf none =
      MwOutcome.respond 401 false "Access denied. No token provided.") ∧
    (stripBearer s = "" → authenticateToken vf (some s) =
      MwOutcome.respond 401 false "Access denied. No token provided.") ∧
    (stripBearer s ≠ "" → vf (stripBearer s) = VerifyResult.jsonWebTokenError →
      authenticateToken vf (some s) = MwOutcome.respond 401 false "Invalid token") ∧
    (stripBearer s ≠ "" → vf (stripBearer s) = VerifyResult.tokenExpiredError →
      authenticateToken vf (some s) =
        MwOutcome.respond 401 false "Token expired. Please login again.") ∧
    (stripBearer s ≠ "" → vf (stripBearer s) = VerifyResult.otherError m →
      authenticateToken vf (some s) =
        MwOutcome.respond 500 false "Token verification failed") ∧
    (stripBearer s ≠ "" → vf (stripBearer s) = VerifyResult.ok p →
      authenticateToken vf (some s) = MwOutcome.proceed p) := by
  refine ⟨rfl, ?_, ?_, ?_, ?_, ?_⟩
  · intro h; simp [authenticateToken, h]
  all_goals intro h hv
  all_goals simp [authenticateToken, dispatchVerify, h, hv]

/-- Concrete payload for middleware witnesses. -/
def demoPayload : JwtPayload := ⟨1, "a@b.com", 0, 10⟩

theorem auth_middleware_case_analysis_witness :
    authenticateToken (fun _ => VerifyResult.ok demoPayload) (some "Bearer t") =
      MwOutcome.proceed demoPayload :=
  (auth_middleware_case_analysis (fun _ => VerifyResult.ok demoPayload)
    "Bearer t" demoPayload "m").2.2.2.2.2 (by decide) rfl

/-- C4: the email is a case-insensitive login key: with stored emails
lowercased and at most one account per lowercased email (the unique
index), a login request with any case variant of a registered email and
the correct password succeeds and issues a token for that account. -/
theorem email_case_insensitive_login_key (db : List Student) (st : Student)
    (e p : String) (now : Nat) (secret : String)
    (hu : emailsUniq db = true) (hm : st ∈ db) (he : st.email = lowerStr e)
    (hpw : ∃ salt, st.password = PwField.hashPB salt p)
    (hne : e ≠ "") (hnp : p ≠ "") :
    (login db e p now secret).resp = ⟨200, true, "Login successful"⟩ ∧
    (login db e p now secret).token = some (signToken st.id st.email secret now) := by
  rcases hpw with ⟨salt, hpw⟩
  have hf : findOneByEmail db e = some st := find?_eq_some_of_uniq db st (lowerStr e) hu hm he
  have hcmp : comparePassword p st.password = true := by
    simp [comparePassword, bcryptCompare, hpw]
  constructor <;> simp [login, hf, hcmp, hne, hnp]

theorem email_case_insensitive_login_key_witness :
    (login demoDb "A@b.COM" "secret1" 50 "k").resp =
      ⟨200, true, "Login successful"⟩ :=
  (email_case_insensitive_login_key demoDb demoStored "A@b.COM" "secret1" 50 "k"
    (by decide) (by decide) (by decide) ⟨5, rfl⟩ (by decide) (by decide)).1

/-- C5: in every collection reachable from the empty store through the
account-lifecycle endpoints, each stored password field is a bcrypt hash
produced by the pre-save hashing hook, and in particular is never the
plaintext form of any string a client ever submitted. -/
theorem stored_password_never_plaintext (db : List Student) (h : Reachable db)
    (s : Student) (hs : s ∈ db) :
    (∃ salt p, s.password = PwField.hashPB salt p) ∧
    ∀ q : String, s.password ≠ PwField.plainPB q := by
  rcases reachable_hashed db h s hs with ⟨salt, p, hp⟩
  refine ⟨⟨salt, p, hp⟩, ?_⟩
  intro q hq
  rw [hp] at hq
  cases hq

theorem stored_password_never_plaintext_witness :
    demoStudent.password ≠ PwField.plainPB "secret123" :=
  (stored_password_never_plaintext demoRegState
    (Reachable.step [] (Op.opRegister demoBody 1 7 100 "k") Reachable.init)
    demoStudent (by decide)).2 "secret123"

/-- C6: verifying a password against its own hash succeeds; verifying it
against the hash of a different password fails; hashing the same
plaintext twice with the per-call random salts yields distinct opaque
outputs, each of which verifies against the original plaintext. -/
theorem bcrypt_hash_verify_properties (p p2 : String) (s1 s2 : Nat)
    (hp : p ≠ p2) (hs : s1 ≠ s2) :
    bcryptCompare p (PwField.hashPB s1 p) = Except.ok true ∧
    bcryptCompare p (PwField.hashPB s1 p2) = Except.ok false ∧
    PwField.hashPB s1 p ≠ PwField.hashPB s2 p ∧
    bcryptCompare p (PwField.hashPB s2 p) = Except.ok true := by
  refine ⟨by simp [bcryptCompare], by simp [bcryptCompare, hp], by simp [hs], by simp [bcryptCompare]⟩

theorem bcrypt_hash_verify_properties_witness :
    bcryptCompare "a" (PwField.hashPB 0 "a") = Except.ok true :=
  (bcrypt_hash_verify_properties "a" "b" 0 1 (by decide) (by decide)).1

/-- C7: the logout handler answers 200 and modifies at most the
`lastLogoutAt` field of the matched account, every other document and
field being untouched; and because token verification reads only the
token, the secret and the clock (there is no revocation state), any token
that verified successfully before the logout still verifies successfully
afterwards. -/
theorem logout_frame_no_revocation (db : List Student) (uid now : Nat)
    (t : Token) (secret : String) (clock : Nat) (pl : JwtPayload) :
    (logout db uid now).resp = ⟨200, true, "Logged out successfully"⟩ ∧
    List.Forall₂ (fun a b => b = a ∨ b = { a with lastLogoutAt := some now })
      db (logout db uid now).db ∧
    (verifyToken t secret clock = VerifyResult.ok pl →
      protectedCheck (logout db uid now).db t secret clock = MwOutcome.proceed pl) := by
  refine ⟨rfl, ?_, ?_⟩
  · exact forall2_updateFirstById uid _ db
  · intro hv
    simp [protectedCheck, dispatchVerify, hv]

theorem logout_frame_no_revocation_witness :
    protectedCheck (logout demoDb 1 70).db (signToken 1 "a@b.com" "k" 0) "k" 10 =
      MwOutcome.proceed ⟨1, "a@b.com", 0, sevenDays⟩ :=
  (logout_frame_no_revocation demoDb 1 70 (signToken 1 "a@b.com" "k" 0) "k" 10
    ⟨1, "a@b.com", 0, sevenDays⟩).2.2 (by decide)

/-- C8 counterexample: on a stored value that is not a bcrypt hash the
underlying `bcrypt.compare` rejects, yet `comparePassword` resolves with
`false` rather than failing, so the verifier does not fail on malformed
stored-hash input, contradicting the claim that it fails exactly there. -/
theorem compare_password_malformed_no_error :
    bcryptCompare "candidate" (PwField.plainPB "not-a-bcrypt-hash") =
      Except.error "Invalid salt" ∧
    comparePasswordE "candidate" (PwField.plainPB "not-a-bcrypt-hash") =
      Except.ok false :=
  ⟨rfl, rfl⟩

/-- C8 amended: `comparePassword` never fails at all: every call resolves
with a boolean; a non-matching password against a well-formed hash yields
`false`; and when the underlying `bcrypt.compare` errors (malformed stored
hash) the catch branch swallows the error and the method also resolves
with `false`. -/
theorem compare_password_never_fails (c : String) (st : PwField) :
    (comparePasswordE c st).isOk = true ∧
    (∀ salt p, st = PwField.hashPB salt p → c ≠ p →
      comparePasswordE c st = Except.ok false) ∧
    (∀ m, bcryptCompare c st = Except.error m →
      comparePasswordE c st = Except.ok false) := by
  refine ⟨?_, ?_, ?_⟩
  · cases st <;> rfl
  · intro salt p hst hc
    subst hst
    simp [comparePasswordE, bcryptCompare, hc]
  · intro m hm
    simp [comparePasswordE, hm]

theorem compare_password_never_fails_witness :
    comparePasswordE "x" (PwField.hashPB 1 "y") = Except.ok false :=
  (compare_password_never_fails "x" (PwField.hashPB 1 "y")).2.1 1 "y" rfl (by decide)

/-- C9 counterexample: the header `x Bearer y` does not begin with
`Bearer `, yet the middleware does not pass it to the verifier whole: the
first occurrence of `Bearer ` in the middle is stripped and the verifier
receives `x y`, contradicting the claim that only a leading occurrence is
stripped and that the entire header value is passed. -/
theorem bearer_strip_not_only_leading :
    authenticateToken (fun t => VerifyResult.ok ⟨0, t, 0, 0⟩) (some "x Bearer y") =
      MwOutcome.proceed ⟨0, "x y", 0, 0⟩ ∧
    startsWithStr "x Bearer y" "Bearer " = false ∧
    "x y" ≠ "x Bearer y" := by
  refine ⟨by decide, by decide, by decide⟩

/-- C9 amended: the middleware strips the first occurrence of `Bearer `
anywhere in the header value, not only a leading one, and passes the
remainder to the verifier; a request with a non-empty Authorization header
other than the exact string `Bearer ` is never rejected as missing a
token, and the no-token 401 arises only when the header is absent or the
extracted token is empty. -/
theorem bearer_token_extraction_behavior (vf : String → VerifyResult) (s : String)
    (hs : s ≠ "") (hb : s ≠ "Bearer ") :
    authenticateToken vf (some s) ≠
      MwOutcome.respond 401 false "Access denied. No token provided." ∧
    authenticateToken vf (some s) = dispatchVerify (vf (stripBearer s)) := by
  have hne : stripBearer s ≠ "" := by
    intro h
    rcases stripBearer_eq_empty s h with h1 | h1
    · exact hs h1
    · exact hb h1
  constructor
  · simp only [authenticateToken]
    rw [if_neg (by simpa using hne)]
    cases hv : vf (stripBearer s) <;> simp [dispatchVerify]
  · simp only [authenticateToken]
    rw [if_neg (by simpa using hne)]

theorem bearer_token_extraction_behavior_witness :
    authenticateToken (fun _ => VerifyResult.jsonWebTokenError) (some "abc") =
      dispatchVerify VerifyResult.jsonWebTokenError :=
  (bearer_token_extraction_behavior (fun _ => VerifyResult.jsonWebTokenError)
    "abc" (by decide) (by decide)).2

/-- C10: a registration request whose body lacks the `skills` field and
whose email is not yet taken throws a `TypeError` while building the
account data (`skills.split` on `undefined`), before any document is
created, so the catch handler answers 500 (not a 400 validation error) and
the collection is unchanged. -/
theorem register_missing_skills_server_error (db : List Student) (b : RegisterBody)
    (newId salt now : Nat) (secret : String)
    (hf : findOneByEmail db b.email = none) (hsk : b.skills = none) :
    register db b newId salt now secret =
      ⟨⟨500, false, "Server error during registration"⟩, none, db⟩ := by
  simp [register, hf, hsk, buildSkills]

theorem register_missing_skills_server_error_witness :
    register [] ⟨"q@b.com", "longpass", "f", "a", "male", "d", "m", "c", "c", none⟩
        2 3 4 "k" =
      ⟨⟨500, false, "Server error during registration"⟩, none, []⟩ :=
  register_missing_skills_server_error []
    ⟨"q@b.com", "longpass", "f", "a", "male", "d", "m", "c", "c", none⟩
    2 3 4 "k" (by decide) rfl
